import Mathlib

/-!
Shallow embedding of the recommendation engine of the ML-BUSINESS-API
repository, together with proofs settling the frozen claims about its
specification.

The embedded code lives in:
  app/ml/recommendation_engine/collaborative_filtering.py
  app/ml/recommendation_engine/hybrid_recommender.py
  app/ml/utils/data_processor.py
  app/ml/utils/model_evaluator.py
  app/services/recommendation_service.py

Conventions of the embedding:
  * Python floats are modelled as rationals; the numeric weights, prices
    and ratings occurring in the programs are small decimal literals for
    which rational arithmetic agrees with IEEE float comparison.
  * numpy argsort is modelled as a stable ascending sort of the index
    range (numpy's default quicksort fixes an arbitrary order on ties;
    none of the theorems below depends on the tie order).
  * Database rows fetched by the training SQL query are modelled by
    filtering and mapping in-memory row lists, translating the WHERE /
    CASE clauses of the query verbatim; the JOIN on the BusinessID
    primary key is modelled as an existence test over the business table.
-/

set_option maxRecDepth 4000

namespace MLBusiness

/-- A stable sort (insertion sort keeps the original order of elements
the comparison does not separate), the guarantee Python's list.sort and
sorted give. -/
def stableSortBy {α : Type} (le : α → α → Bool) (l : List α) : List α :=
  l.insertionSort fun a b => le a b = true

/-- numpy argsort: indices of the list sorted ascending by value
(stable, so ties keep index order; numpy leaves the tie order to the
sort algorithm, and no theorem below depends on it). -/
def argsort (l : List ℚ) : List ℕ :=
  stableSortBy (fun i j => decide (l.getD i 0 ≤ l.getD j 0)) (List.range l.length)

/-- Python sorted(set(xs)): the distinct elements in ascending order. -/
def sortedDedup (l : List ℤ) : List ℤ :=
  stableSortBy (fun a b => decide (a ≤ b)) l.dedup

/-!
## CollaborativeFiltering
(app/ml/recommendation_engine/collaborative_filtering.py)
-/

/-- A row of the user_behavior table as consumed by the training query.
The event age in days stands for action_timestamp relative to NOW(). -/
structure BehaviorRow where
  user_id : ℤ
  business_id : ℤ
  action_type : String
  age_days : ℚ
  deriving Repr, DecidableEq

/-- A row of the Businesses table (only the columns the query uses). -/
structure BizRow where
  businessID : ℤ
  isActive : Bool
  deriving Repr, DecidableEq

/-- The CASE expression of the training query:
purchase → 3, share → 2, click → 1, ELSE (including view) → 0. -/
def sqlCaseWeight (a : String) : ℚ :=
  if a = "purchase" then 3
  else if a = "share" then 2
  else if a = "click" then 1
  else 0

/-- The training query's row set: user_behavior rows joined to an active
business (JOIN on the BusinessID primary key, WHERE IsActive) whose
timestamp is within the last 90 days. -/
def fetchTrainingRows (behavior : List BehaviorRow) (businesses : List BizRow) :
    List BehaviorRow :=
  behavior.filter fun r =>
    (businesses.any fun b => b.businessID == r.business_id && b.isActive)
      && decide (r.age_days < 90)

/-- The state of a CollaborativeFiltering instance.  The similarity
matrix is None until train succeeds. -/
structure CFState where
  user_ids : List ℤ
  business_ids : List ℤ
  interaction_matrix : List (List ℚ)
  user_similarity_matrix : Option (List (List ℚ))
  deriving Repr

/-- The freshly constructed (untrained) CollaborativeFiltering state. -/
def cfInit : CFState := ⟨[], [], [], none⟩

/-- One iteration of the assignment loop
interaction_matrix[ui, bi] = r.weight (note: assignment, not +=). -/
def matrixAssign (uids bids : List ℤ) (m : ℕ → ℕ → ℚ) (r : BehaviorRow) :
    ℕ → ℕ → ℚ :=
  fun ui bi =>
    if ui = uids.indexOf r.user_id ∧ bi = bids.indexOf r.business_id then
      sqlCaseWeight r.action_type
    else m ui bi

/-- The interaction matrix as a function of row/column index: start from
np.zeros and run the assignment loop over the fetched rows in order. -/
def buildMatrixFn (uids bids : List ℤ) (rows : List BehaviorRow) : ℕ → ℕ → ℚ :=
  rows.foldl (matrixAssign uids bids) (fun _ _ => 0)

/-- user_ids of the training pass: sorted(set(r.user_id)). -/
def trainUserIds (rows : List BehaviorRow) : List ℤ :=
  sortedDedup (rows.map (·.user_id))

/-- business_ids of the training pass: sorted(set(r.business_id)). -/
def trainBusinessIds (rows : List BehaviorRow) : List ℤ :=
  sortedDedup (rows.map (·.business_id))

/-- The interaction matrix of the training pass, materialised row by
row from the assignment-loop function. -/
def trainMatrix (rows : List BehaviorRow) : List (List ℚ) :=
  (List.range (trainUserIds rows).length).map fun ui =>
    (List.range (trainBusinessIds rows).length).map fun bi =>
      buildMatrixFn (trainUserIds rows) (trainBusinessIds rows) rows ui bi

/-- CollaborativeFiltering.train.  The early return on an empty row set
leaves the freshly initialised state.  cosine_similarity is real-valued
(irrational in general), so it is taken as a parameter simOf; every
theorem below holds for an arbitrary simOf, in particular the true one. -/
def cfTrain (behavior : List BehaviorRow) (businesses : List BizRow)
    (simOf : List (List ℚ) → List (List ℚ)) : CFState :=
  let interactions := fetchTrainingRows behavior businesses
  if interactions.isEmpty then cfInit
  else
    ⟨trainUserIds interactions, trainBusinessIds interactions,
      trainMatrix interactions, some (simOf (trainMatrix interactions))⟩

/-- CollaborativeFiltering.get_recommendations. -/
def cfGetRecommendations (s : CFState) (user_id : ℤ) (limit : ℕ) : List ℤ :=
  match s.user_similarity_matrix with
  | none => []
  | some sim =>
    if user_id ∉ s.user_ids then []
    else
      let user_idx := s.user_ids.indexOf user_id
      let user_similarities := sim.getD user_idx []
      let similar_user_indices := ((argsort user_similarities).reverse.drop 1).take 5
      let business_scores : List ℚ :=
        (List.range s.business_ids.length).map fun j =>
          (similar_user_indices.map fun i => (s.interaction_matrix.getD i []).getD j 0).sum
      let user_interactions := s.interaction_matrix.getD user_idx []
      let zeroed_scores : List ℚ :=
        (List.range s.business_ids.length).map fun j =>
          if user_interactions.getD j 0 > 0 then 0 else business_scores.getD j 0
      let top_indices := ((argsort zeroed_scores).reverse).take limit
      (top_indices.filter fun i => decide (zeroed_scores.getD i 0 > 0)).map
        fun i => s.business_ids.getD i 0

/-!
## DataProcessor
(app/ml/utils/data_processor.py)
-/

/-- The action_weights dict of DataProcessor.preprocess_user_behavior_data.
pandas .map yields NaN (here: none) for keys absent from the dict —
note there is no entry for view. -/
def dpActionWeight (a : String) : Option ℚ :=
  if a = "click" then some 1
  else if a = "share" then some 2
  else if a = "purchase" then some 3
  else none

/-!
## HybridRecommender
(app/ml/recommendation_engine/hybrid_recommender.py)

get_recommendations first awaits the two sub-engines; contentRecs and
collabRecs below stand for the lists those two awaits returned (content
based on tf-idf real arithmetic, collaborative as embedded above), and
the function below is the translation of the merge logic that follows
(lines 31-55).  Python's list(set(...)) enumerates the distinct elements
in an unspecified order; it is modelled by List.dedup (first-occurrence
order) — the theorems below do not depend on the enumeration order.
-/

def hybridGetRecommendations (is_trained : Bool) (user_interests : List String)
    (contentRecs collabRecs : List ℤ) (limit : ℕ) : List ℤ :=
  if !is_trained then []
  else
    let content_recs := if user_interests.isEmpty then [] else contentRecs
    let collab_recs := collabRecs
    let all_recs := (content_recs ++ collab_recs).dedup
    if !content_recs.isEmpty && !collab_recs.isEmpty then
      let content_count := min (limit / 2) content_recs.length
      let collab_count := min (limit / 2) collab_recs.length
      let final_recs := content_recs.take content_count ++ collab_recs.take collab_count
      let remaining := limit - final_recs.length
      let final_recs :=
        if remaining > 0 then
          final_recs ++ (all_recs.filter fun r => !final_recs.contains r).take remaining
        else final_recs
      final_recs.take limit
    else all_recs.take limit

/-!
## ModelEvaluator
(app/ml/utils/model_evaluator.py)
-/

/-- Python round(x, 4): round half to even at the fourth decimal. -/
def roundHalfEven (q : ℚ) : ℤ :=
  let f := ⌊q⌋
  if q - f < 1/2 then f
  else if q - f > 1/2 then f + 1
  else if Even f then f else f + 1

/-- round(x, 4) on a rational. -/
def pyRound4 (q : ℚ) : ℚ := (roundHalfEven (q * 10000) : ℚ) / 10000

structure EvalMetrics where
  precision : ℚ
  recallAtK : ℚ
  f1 : ℚ
  deriving Repr, DecidableEq

/-- hits of ModelEvaluator.evaluate_recommendations: how many of the
first k recommendations are true positives. -/
def hitCount (true_positives recommendations : List String) (k : ℕ) : ℚ :=
  ((recommendations.take k).map fun item =>
    if true_positives.contains item then (1 : ℚ) else 0).sum

/-- ModelEvaluator.evaluate_recommendations. -/
def evaluateRecommendations (true_positives recommendations : List String)
    (k : ℕ) : EvalMetrics :=
  if true_positives.isEmpty || recommendations.isEmpty then ⟨0, 0, 0⟩
  else
    let top_k := recommendations.take k
    let hits := hitCount true_positives recommendations k
    let precision : ℚ := if !top_k.isEmpty then hits / top_k.length else 0
    let recallAtK : ℚ := if !true_positives.isEmpty then hits / true_positives.length else 0
    let f1 : ℚ :=
      if precision + recallAtK > 0 then 2 * (precision * recallAtK) / (precision + recallAtK)
      else 0
    ⟨pyRound4 precision, pyRound4 recallAtK, pyRound4 f1⟩

/-!
## RecommendationService
(app/services/recommendation_service.py)
-/

/-- Python str.lower on our strings. -/
def pyLower (s : String) : String := s.toLower

/-- Python substring test: needle in hay. -/
def strContains (hay needle : String) : Bool := decide (List.IsInfix needle.data hay.data)

/-- Python str.split() with no argument: split on whitespace runs,
dropping empty pieces. -/
def pySplit (s : String) : List String :=
  (s.split fun c => c.isWhitespace).filter fun w => w ≠ ""

/-- The PriceRange enum of app/models/schemas.py. -/
inductive PriceRange where
  | budget
  | moderate
  | premium
  deriving Repr, DecidableEq

/-- The fields of BusinessResponse that the recommendation service
reads.  Optional fields are None-able exactly as in the pydantic
schema. -/
structure Business where
  id : String
  name : String
  description : String
  location : Option String
  categories : List String
  price : Option ℚ
  rating : Option ℚ
  review_count : Option ℤ
  deriving Repr, DecidableEq

/-- The preference fields the service reads (interests, location,
price_range).  location is optional here because the service only ever
tests its truthiness. -/
structure UserPreferences where
  interests : List String
  location : Option String
  price_range : Option PriceRange
  deriving Repr, DecidableEq

/-- Python truthiness of an optional string (None and the empty string
are falsy). -/
def strTruthy : Option String → Bool
  | none => false
  | some s => s ≠ ""

/-- RecommendationService._get_price_range on a present numeric price:
<1000 → budget, <5000 → moderate, else premium. -/
def getPriceRange (price : ℚ) : PriceRange :=
  if price < 1000 then .budget
  else if price < 5000 then .moderate
  else .premium

/-- RecommendationService._get_price_range including its None guard,
which returns the moderate default. -/
def getPriceRangeOpt : Option ℚ → PriceRange
  | none => .moderate
  | some p => getPriceRange p

/-- The searchable text of a business: lowercased name and description,
then the lowercased categories when the list is non-empty. -/
def searchableText (b : Business) : String :=
  let base := pyLower b.name ++ " " ++ pyLower b.description
  if !b.categories.isEmpty then
    base ++ " " ++ String.intercalate " " (b.categories.map pyLower)
  else base

/-- The location check shared by the strict and relaxed stages: passes
unless both a location preference and a business location are truthy and
the preference is not a case-insensitive substring of the location. -/
def locationMatch (prefs : UserPreferences) (b : Business) : Bool :=
  if strTruthy prefs.location && strTruthy b.location then
    strContains (pyLower (b.location.getD "")) (pyLower (prefs.location.getD ""))
  else true

/-- The strict stage's price check: only applied when a price-range
preference is given AND the business price is not None. -/
def priceMatch (prefs : UserPreferences) (b : Business) : Bool :=
  match prefs.price_range, b.price with
  | some pr, some p => getPriceRange p == pr
  | _, _ => true

/-- The strict stage's interest check: with interests given, some
interest is a case-insensitive substring of the searchable text; with no
interests every business passes. -/
def interestMatch (prefs : UserPreferences) (b : Business) : Bool :=
  if !prefs.interests.isEmpty then
    prefs.interests.any fun i => strContains (searchableText b) (pyLower i)
  else true

/-- One business survives the strict filtering stage of
recommend_based_on_preferences iff all three checks pass. -/
def strictKeep (prefs : UserPreferences) (b : Business) : Bool :=
  locationMatch prefs b && priceMatch prefs b && interestMatch prefs b

/-- The strict stage over the whole catalog. -/
def strictStage (all : List Business) (prefs : UserPreferences) : List Business :=
  all.filter (strictKeep prefs)

/-- The relaxed stage appends one copy of the business per interest that
has a word of length > 3 occurring in the searchable text (the break
leaves only the inner word loop, so the interest loop keeps going). -/
def relaxedCopies (prefs : UserPreferences) (b : Business) : List Business :=
  if locationMatch prefs b then
    (prefs.interests.filter fun i =>
      (pySplit (pyLower i)).any fun w => w.length > 3 && strContains (searchableText b) w).map
      fun _ => b
  else []

/-- The relaxed stage over the whole catalog. -/
def relaxedStage (all : List Business) (prefs : UserPreferences) : List Business :=
  all.flatMap (relaxedCopies prefs)

/-- Whether recommend_based_on_preferences reaches the relaxed loop:
only after the non-empty-catalog early-return guard, and only when the
strict stage filled nothing and interests were given. -/
def relaxedTriggered (all : List Business) (prefs : UserPreferences) : Bool :=
  if all.isEmpty then false
  else (strictStage all prefs).isEmpty && !prefs.interests.isEmpty

/-- De-duplication by business id keeping the first occurrence (the
seen_ids loop). -/
def dedupById (seen : List String) : List Business → List Business
  | [] => []
  | b :: rest =>
    if seen.contains b.id then dedupById seen rest
    else b :: dedupById (b.id :: seen) rest

/-- Python list.sort(key=lambda b: -(b.rating or 0)): stable ascending
sort of negated rating, i.e. stable descending by (rating or 0). -/
def sortByRatingDesc (l : List Business) : List Business :=
  stableSortBy (fun a b => decide (b.rating.getD 0 ≤ a.rating.getD 0)) l

/-- RecommendationService.recommend_based_on_preferences over an
already-fetched catalog. -/
def recommendBasedOnPreferences (all : List Business) (prefs : UserPreferences) :
    List Business :=
  if all.isEmpty then []
  else
    let filtered :=
      if (strictStage all prefs).isEmpty && !prefs.interests.isEmpty then
        strictStage all prefs ++ relaxedStage all prefs
      else strictStage all prefs
    sortByRatingDesc (dedupById [] filtered)

/-- The sort key of get_popular_businesses: ((rating or 0), (review_count
or 0)), compared descending (reverse=True on the ascending pair order). -/
def popKeyLe (a b : Business) : Bool :=
  decide (b.rating.getD 0 < a.rating.getD 0 ∨
    (b.rating.getD 0 = a.rating.getD 0 ∧ b.review_count.getD 0 ≤ a.review_count.getD 0))

/-- RecommendationService.get_popular_businesses: sort the catalog by
(rating, review_count) descending and keep the first 10. -/
def getPopularBusinesses (all : List Business) : List Business :=
  (stableSortBy popKeyLe all).take 10

/-- The per-user behavior entry of the in-memory user_behavior dict. -/
structure BehaviorData where
  viewed : List String
  purchased : List String
  deriving Repr, DecidableEq

/-- The user_behavior dict, keyed by integer user id. -/
def ServiceBehavior := ℤ → Option BehaviorData

/-- Python truthiness of the Optional[int] user_id: None and 0 are
falsy. -/
def userFalsy : Option ℤ → Bool
  | none => true
  | some n => n == 0

/-- RecommendationService.track_user_behavior: no-op on a falsy user id;
otherwise record the business id into viewed (click/view) or purchased
(purchase), skipping ids already present and evicting the oldest entry
past capacity 20 / 10. -/
def trackUserBehavior (state : ServiceBehavior) (user_id : Option ℤ)
    (business_id : String) (action : String) : ServiceBehavior :=
  if userFalsy user_id then state
  else
    let uid := user_id.getD 0
    let bd := (state uid).getD ⟨[], []⟩
    let viewed :=
      if (action == "click" || action == "view") && !bd.viewed.contains business_id then
        let v := bd.viewed ++ [business_id]
        if v.length > 20 then v.tail else v
      else bd.viewed
    let purchased :=
      if action == "purchase" && !bd.purchased.contains business_id then
        let p := bd.purchased ++ [business_id]
        if p.length > 10 then p.tail else p
      else bd.purchased
    fun u => if u = uid then some ⟨viewed, purchased⟩ else state u

/-- The category-mates collection step of recommend_based_on_behavior:
for each remembered business id, the catalog entries sharing a category
with it (and not equal to it). -/
def similarByCategory (all : List Business) (ids : List String) : List Business :=
  ids.flatMap fun business_id =>
    match all.find? fun b => b.id == business_id with
    | none => []
    | some src =>
      all.filter fun b =>
        b.id != business_id && b.categories.any fun cat => src.categories.contains cat

/-- RecommendationService.recommend_based_on_behavior over an
already-fetched catalog and the in-memory behavior state. -/
def recommendBasedOnBehavior (state : ServiceBehavior) (all : List Business)
    (user_id : Option ℤ) : List Business :=
  if userFalsy user_id then getPopularBusinesses all
  else
    let bd := (state (user_id.getD 0)).getD ⟨[], []⟩
    if bd.viewed.isEmpty && bd.purchased.isEmpty then getPopularBusinesses all
    else
      let recommendations := similarByCategory all bd.purchased
      let recommendations :=
        if recommendations.isEmpty && !bd.viewed.isEmpty then
          similarByCategory all bd.viewed
        else recommendations
      let unique := dedupById [] recommendations
      if !unique.isEmpty then unique else getPopularBusinesses all

/-!
## Concrete data used by counterexamples and witnesses
-/

/-- Two active businesses for the collaborative training demo. -/
def demoBiz : List BizRow := [⟨10, true⟩, ⟨20, true⟩]

/-- A demo interaction log: user 1 purchased businesses 10 and 20,
user 2 purchased business 20, all inside the 90-day window. -/
def demoBehavior : List BehaviorRow :=
  [⟨1, 10, "purchase", 5⟩, ⟨1, 20, "purchase", 6⟩, ⟨2, 20, "purchase", 7⟩]

/-- The collaborative state trained on the demo log (an explicit
similarity matrix stands in for the cosine values; the theorems hold
for every similarity matrix). -/
def demoCF : CFState := cfTrain demoBehavior demoBiz fun _ => [[1, 7/10], [7/10, 1]]

/-- One active business for the duplicate-event demo. -/
def dupBiz : List BizRow := [⟨10, true⟩]

/-- Duplicate-event demo log: user 1 purchased business 10 twice,
both events inside the 90-day window. -/
def dupBehavior : List BehaviorRow :=
  [⟨1, 10, "purchase", 5⟩, ⟨1, 10, "purchase", 6⟩]

/-- Scenario catalog entry A: rating 4.5, category TECH. -/
def bizA : Business := ⟨"A", "Business A", "", none, ["TECH"], none, some (9/2), some 45⟩

/-- Scenario catalog entry B: rating 4.8, category TECH. -/
def bizB : Business := ⟨"B", "Business B", "", none, ["TECH"], none, some (24/5), some 78⟩

/-- Scenario catalog entry C: rating 4.2, category FOOD. -/
def bizC : Business := ⟨"C", "Business C", "", none, ["FOOD"], none, some (21/5), some 56⟩

/-- A business whose price field is None. -/
def noPriceBiz : Business := ⟨"np", "Plain Shop", "a shop", none, [], none, some 4, some 1⟩

/-!
## Claims
-/

/-- Claim C3 (counterexample): the training query's CASE expression
gives a view event weight 0, not the base weight 1 the claim states. -/
theorem sql_view_weight_zero : sqlCaseWeight "view" = 0 ∧ (0 : ℚ) ≠ 1 := by
  decide

/-- Claim C3 (amended): during training, click maps to 1, share to 2 and
purchase to 3, but view falls through the CASE expression to weight 0;
the DataProcessor weight dict likewise has no entry for view at all. -/
theorem action_weight_table :
    sqlCaseWeight "click" = 1 ∧ sqlCaseWeight "share" = 2 ∧
    sqlCaseWeight "purchase" = 3 ∧ sqlCaseWeight "view" = 0 ∧
    dpActionWeight "click" = some 1 ∧ dpActionWeight "share" = some 2 ∧
    dpActionWeight "purchase" = some 3 ∧ dpActionWeight "view" = none := by
  decide

/-- Claim C9: get_recommendations returns the empty list whenever the
similarity matrix was never trained or the queried user id is not among
the trained snapshot's users. -/
theorem cf_unknown_user_empty (s : CFState) (user_id : ℤ) (limit : ℕ)
    (h : s.user_similarity_matrix = none ∨ user_id ∉ s.user_ids) :
    cfGetRecommendations s user_id limit = [] := by
  unfold cfGetRecommendations
  rcases h with h | h
  · rw [h]
  · cases hs : s.user_similarity_matrix with
    | none => rfl
    | some sim => simp [h]

/-- Claim C9 witness: the untrained initial state answers the empty list
for user 5. -/
theorem cf_unknown_user_empty_witness :
    (cfInit.user_similarity_matrix = none ∨ (5 : ℤ) ∉ cfInit.user_ids) ∧
    cfGetRecommendations cfInit 5 10 = [] :=
  ⟨Or.inl rfl, cf_unknown_user_empty cfInit 5 10 (Or.inl rfl)⟩

/-- Claim C10: a user id of 0 is falsy in Python, so track_user_behavior
leaves the behavior state unchanged and recommend_based_on_behavior
returns the popularity fallback, whatever is stored under key 0. -/
theorem user_zero_is_anonymous (state : ServiceBehavior) (all : List Business)
    (business_id action : String) :
    trackUserBehavior state (some 0) business_id action = state ∧
    recommendBasedOnBehavior state all (some 0) = getPopularBusinesses all := by
  constructor
  · unfold trackUserBehavior
    simp [userFalsy]
  · unfold recommendBasedOnBehavior
    simp [userFalsy]

/-- Claim C6 (counterexample): over an empty catalog with interests
given, the strict stage yields zero results and interests are non-empty,
yet the early return means the relaxed loop is never reached. -/
theorem relaxed_trigger_empty_catalog :
    relaxedTriggered [] ⟨["coffee"], none, none⟩ = false ∧
    strictStage [] ⟨["coffee"], none, none⟩ = [] ∧
    (⟨["coffee"], none, none⟩ : UserPreferences).interests ≠ [] := by
  decide

/-- Claim C6 (amended): the relaxed matching stage runs if and only if
the catalog is non-empty, the strict stage produced zero results, and
the interests list is non-empty. -/
theorem relaxed_trigger_iff (all : List Business) (prefs : UserPreferences) :
    relaxedTriggered all prefs = true ↔
      all ≠ [] ∧ strictStage all prefs = [] ∧ prefs.interests ≠ [] := by
  cases all with
  | nil => simp [relaxedTriggered]
  | cons b rest => simp [relaxedTriggered, List.isEmpty_iff, Bool.not_eq_true']

/-- Claim C7 (counterexample): a business with a missing price passes
the strict stage with a budget price-range preference, although budget
is not the moderate bucket the claim says such a business lands in. -/
theorem missing_price_kept_for_budget :
    strictKeep ⟨[], none, some .budget⟩ noPriceBiz = true ∧
    PriceRange.budget ≠ PriceRange.moderate := by
  decide

/-- Claim C7 (amended): in the strict stage the price filter is only
applied when the business price is present, so a business with a missing
price is kept or dropped solely by the location and interest checks,
whatever the stated price-range preference; the moderate default exists
only inside _get_price_range, which the strict stage never reaches with
a missing price. -/
theorem missing_price_skips_price_filter (prefs : UserPreferences) (b : Business)
    (h : b.price = none) :
    strictKeep prefs b = (locationMatch prefs b && interestMatch prefs b) ∧
    getPriceRangeOpt none = PriceRange.moderate := by
  refine ⟨?_, rfl⟩
  unfold strictKeep priceMatch
  rw [h]
  cases prefs.price_range <;> simp

/-- Claim C7 witness: the missing-price business with a premium
preference. -/
theorem missing_price_skips_price_filter_witness :
    noPriceBiz.price = none ∧
    (strictKeep ⟨[], none, some .premium⟩ noPriceBiz =
        (locationMatch ⟨[], none, some .premium⟩ noPriceBiz &&
          interestMatch ⟨[], none, some .premium⟩ noPriceBiz) ∧
      getPriceRangeOpt none = PriceRange.moderate) :=
  ⟨rfl, missing_price_skips_price_filter ⟨[], none, some .premium⟩ noPriceBiz rfl⟩

/-- The popularity comparison is transitive. -/
theorem popKeyLe_trans (a b c : Business) (h1 : popKeyLe a b = true)
    (h2 : popKeyLe b c = true) : popKeyLe a c = true := by
  simp only [popKeyLe, decide_eq_true_eq] at h1 h2 ⊢
  rcases h1 with h1 | ⟨e1, h1⟩
  · rcases h2 with h2 | ⟨e2, h2⟩
    · exact Or.inl (h2.trans h1)
    · exact Or.inl (by rw [e2]; exact h1)
  · rcases h2 with h2 | ⟨e2, h2⟩
    · exact Or.inl (by rw [← e1]; exact h2)
    · exact Or.inr ⟨e2.trans e1, h2.trans h1⟩

/-- The popularity comparison is total. -/
theorem popKeyLe_total (a b : Business) :
    popKeyLe a b = true ∨ popKeyLe b a = true := by
  simp only [popKeyLe, decide_eq_true_eq]
  rcases lt_trichotomy (b.rating.getD 0) (a.rating.getD 0) with h | h | h
  · exact Or.inl (Or.inl h)
  · rcases le_total (b.review_count.getD 0) (a.review_count.getD 0) with hc | hc
    · exact Or.inl (Or.inr ⟨h, hc⟩)
    · exact Or.inr (Or.inr ⟨h.symm, hc⟩)
  · exact Or.inr (Or.inl h)

/-- Claim C5 (counterexample): over the scenario catalog with no
behavior and an absent user id, the service returns all three
businesses in popularity order, not the first two the claim's limit
of 2 demands — get_popular_businesses takes a fixed 10, and the
service-level function has no limit parameter at all. -/
theorem popularity_ignores_limit :
    (recommendBasedOnBehavior (fun _ => none) [bizA, bizB, bizC] none).map
        (fun b => b.id) = ["B", "A", "C"] ∧
    (["B", "A", "C"] : List String) ≠ ["B", "A"] := by
  with_unfolding_all decide

/-- Claim C5 (amended): the popularity fallback sorts the catalog by
(rating, review_count) descending and returns the first 10 of that
order regardless of any requested limit (callers slice afterwards); on
the scenario catalog the result is [B, A, C]. -/
theorem popularity_first_ten :
    (∀ all : List Business, (getPopularBusinesses all).length ≤ 10 ∧
      (getPopularBusinesses all).Pairwise (fun a b => popKeyLe a b = true)) ∧
    (getPopularBusinesses [bizA, bizB, bizC]).map (fun b => b.id) = ["B", "A", "C"] := by
  constructor
  · intro all
    constructor
    · simp only [getPopularBusinesses]
      exact List.length_take_le 10 (stableSortBy popKeyLe all)
    · have hsorted : (stableSortBy popKeyLe all).Pairwise
          (fun a b => popKeyLe a b = true) :=
        @List.sorted_insertionSort Business (fun a b => popKeyLe a b = true) _
          ⟨popKeyLe_total⟩ ⟨popKeyLe_trans⟩ all
      exact hsorted.sublist (List.take_sublist 10 _)
  · with_unfolding_all decide

/-- getD of a map over List.range at an index below the bound. -/
theorem getD_map_range {α : Type} (d : α) {n : ℕ} (f : ℕ → α) (j : ℕ) (hj : j < n) :
    (((List.range n).map f).getD j d) = f j := by
  rw [List.getD_eq_getElem _ _ (by simpa using hj)]
  simp

/-- Members of an argsort result are indices into the scored list. -/
theorem mem_argsort_lt (l : List ℚ) (i : ℕ) (h : i ∈ argsort l) : i < l.length := by
  unfold argsort stableSortBy at h
  rw [List.mem_insertionSort] at h
  simpa using h

/-- Claim C4: get_recommendations never returns a business the queried
user already has positive weight for — the zeroing of interacted
columns followed by the strictly-positive score filter excludes it
(stated over every state with distinct business ids, hence over every
trained snapshot and similarity matrix). -/
theorem cf_excludes_interacted (s : CFState) (user_id : ℤ) (limit b : ℕ)
    (hb : b < s.business_ids.length)
    (hnodup : s.business_ids.Nodup)
    (hpos : 0 < (s.interaction_matrix.getD (s.user_ids.indexOf user_id) []).getD b 0) :
    s.business_ids.getD b 0 ∉ cfGetRecommendations s user_id limit := by
  obtain ⟨uids, bids, mat, simopt⟩ := s
  simp only at hb hnodup hpos
  cases simopt with
  | none => simp [cfGetRecommendations]
  | some sim =>
    by_cases hmem : user_id ∈ uids
    · simp only [cfGetRecommendations, if_neg (not_not_intro hmem)]
      intro hin
      rw [List.mem_map] at hin
      obtain ⟨i, hi, hieq⟩ := hin
      rw [List.mem_filter] at hi
      obtain ⟨hitop, hiposs⟩ := hi
      have hiarg := List.mem_reverse.mp (List.mem_of_mem_take hitop)
      have hilt := mem_argsort_lt _ _ hiarg
      rw [List.length_map, List.length_range] at hilt
      have hgeti := List.getD_eq_getElem bids 0 (by exact hilt)
      have hgetb := List.getD_eq_getElem bids 0 hb
      have hib : i = b := by
        have := hieq.trans hgetb
        rw [hgeti] at this
        exact (List.Nodup.getElem_inj_iff hnodup).mp this
      rw [hib] at hiposs
      rw [getD_map_range 0 _ b hb] at hiposs
      simp only [hpos, if_pos] at hiposs
      exact absurd (of_decide_eq_true hiposs) (lt_irrefl 0)
    · simp [cfGetRecommendations, hmem]

/-- Claim C4 witness: in the demo trained state, user 2 has weight 3 on
business 20; business 20 is not recommended to user 2. -/
theorem cf_excludes_interacted_witness :
    1 < demoCF.business_ids.length ∧ demoCF.business_ids.Nodup ∧
    0 < (demoCF.interaction_matrix.getD (demoCF.user_ids.indexOf 2) []).getD 1 0 ∧
    demoCF.business_ids.getD 1 0 ∉ cfGetRecommendations demoCF 2 10 :=
  ⟨by with_unfolding_all decide, by with_unfolding_all decide,
    by with_unfolding_all decide,
    cf_excludes_interacted demoCF 2 10 1 (by with_unfolding_all decide)
      (by with_unfolding_all decide) (by with_unfolding_all decide)⟩

/-- Claim C2 (counterexample): when the content and collaborative
candidate lists both contain the same business (here business 5 —
reachable, e.g. one business matching the interests that a top-5
neighbour interacted with and the queried user did not), the
prefix-concatenation step of the merge emits the id twice; the length
bound does hold.  The top-up step cannot remove the duplicate because
the union list offers no id outside final_recs. -/
theorem hybrid_duplicate :
    hybridGetRecommendations true ["alpha"] [5] [5] 10 = [5, 5] ∧
    ¬ (hybridGetRecommendations true ["alpha"] [5] [5] 10).Nodup ∧
    (hybridGetRecommendations true ["alpha"] [5] [5] 10).length ≤ 10 := by
  decide

/-- Claim C2 (amended): the hybrid result has length at most limit for
every state, interest list and candidate lists, with no hypothesis at
all; and it is free of duplicates provided no business id occurs in
both sub-engines' candidate lists (each of which is itself
duplicate-free, as both engines derive their candidates from lists of
distinct ids).  When the two lists overlap, the concatenation of their
prefixes can repeat an id, as the counterexample shows. -/
theorem hybrid_bounded_nodup :
    (∀ (is_trained : Bool) (interests : List String)
        (contentRecs collabRecs : List ℤ) (limit : ℕ),
      (hybridGetRecommendations is_trained interests contentRecs collabRecs limit).length
        ≤ limit) ∧
    (∀ (is_trained : Bool) (interests : List String)
        (contentRecs collabRecs : List ℤ) (limit : ℕ),
      contentRecs.Nodup → collabRecs.Nodup → (∀ x ∈ contentRecs, x ∉ collabRecs) →
      (hybridGetRecommendations is_trained interests contentRecs collabRecs limit).Nodup) := by
  constructor
  · intro is_trained interests contentRecs collabRecs limit
    by_cases hi : interests.isEmpty
    · simp [hybridGetRecommendations, hi]
      split
      · simp
      · exact List.length_take_le _ _
    · simp [hybridGetRecommendations, hi]
      split
      · simp
      · split
        · exact List.length_take_le _ _
        · exact List.length_take_le _ _
  · intro is_trained interests contentRecs collabRecs limit hc hv hdisj
    by_cases hi : interests.isEmpty
    · simp [hybridGetRecommendations, hi]
      split
      · exact List.nodup_nil
      · exact (List.take_sublist _ _).nodup (List.nodup_dedup _)
    · simp [hybridGetRecommendations, hi]
      split
      · exact List.nodup_nil
      · split
        · refine (List.take_sublist _ _).nodup ?_
          have htcc : (List.take (limit / 2 ⊓ contentRecs.length) contentRecs).Nodup :=
            (List.take_sublist _ _).nodup hc
          have htvc : (List.take (limit / 2 ⊓ collabRecs.length) collabRecs).Nodup :=
            (List.take_sublist _ _).nodup hv
          split
          · refine List.Nodup.append htcc ?_ ?_
            · refine List.Nodup.append htvc
                (((List.take_sublist _ _).trans (List.filter_sublist _)).nodup
                  (List.nodup_dedup _)) ?_
              intro a ha hb
              have hpred := List.of_mem_filter (List.mem_of_mem_take hb)
              simp only [Bool.and_eq_true, Bool.not_eq_true',
                decide_eq_false_iff_not] at hpred
              exact hpred.2 ha
            · intro a ha hb
              rcases List.mem_append.mp hb with hb | hb
              · exact hdisj a (List.mem_of_mem_take ha) (List.mem_of_mem_take hb)
              · have hpred := List.of_mem_filter (List.mem_of_mem_take hb)
                simp only [Bool.and_eq_true, Bool.not_eq_true',
                  decide_eq_false_iff_not] at hpred
                exact hpred.1 ha
          · refine List.Nodup.append htcc htvc ?_
            intro a ha hb
            exact hdisj a (List.mem_of_mem_take ha) (List.mem_of_mem_take hb)
        · exact (List.take_sublist _ _).nodup (List.nodup_dedup _)

/-- Claim C2 witness: the length bound at the overlapping-candidate
input of the counterexample (no hypotheses), and the duplicate-free
result at disjoint duplicate-free candidate lists, discharging each
hypothesis concretely. -/
theorem hybrid_bounded_nodup_witness :
    (hybridGetRecommendations true ["alpha"] [5] [5] 10).length ≤ 10 ∧
    ([1, 2] : List ℤ).Nodup ∧ ([3] : List ℤ).Nodup ∧
    (∀ x ∈ ([1, 2] : List ℤ), x ∉ ([3] : List ℤ)) ∧
    (hybridGetRecommendations true ["a"] [1, 2] [3] 4).Nodup :=
  ⟨hybrid_bounded_nodup.1 true ["alpha"] [5] [5] 10,
    by decide, by decide, by decide,
    hybrid_bounded_nodup.2 true ["a"] [1, 2] [3] 4 (by decide) (by decide) (by decide)⟩

/-- Claim C8 (counterexample): with one true positive, a one-element
recommendation list and k = 10, the evaluator divides the single hit by
len(top_k) = 1 and reports precision 1; the claim's hits/k would be
1/10. -/
theorem evaluator_short_list :
    (evaluateRecommendations ["a"] ["a"] 10).precision = 1 ∧ (1 : ℚ) ≠ 1 / 10 := by
  with_unfolding_all decide

/-- Claim C8 (amended): for non-empty true positives and
recommendations and k ≥ 1, precision@k is the hit count divided by
min(k, number of recommendations) — the length of the truncated list,
not k itself — and recall@k is the hit count divided by the number of
true positives, each rounded to four decimal places. -/
theorem evaluator_metrics (tp recs : List String) (k : ℕ)
    (htp : tp ≠ []) (hrecs : recs ≠ []) (hk : 1 ≤ k) :
    (evaluateRecommendations tp recs k).precision
        = pyRound4 (hitCount tp recs k / ((min k recs.length : ℕ) : ℚ)) ∧
    (evaluateRecommendations tp recs k).recallAtK
        = pyRound4 (hitCount tp recs k / (tp.length : ℚ)) := by
  have htpe : tp.isEmpty = false := by simpa [List.isEmpty_iff] using htp
  have hrecse : recs.isEmpty = false := by simpa [List.isEmpty_iff] using hrecs
  have htake : (recs.take k).isEmpty = false := by
    cases recs with
    | nil => exact absurd rfl hrecs
    | cons a l =>
      cases k with
      | zero => omega
      | succ n => simp [List.take]
  unfold evaluateRecommendations
  rw [htpe, hrecse]
  simp only [Bool.false_or, Bool.or_self, if_false, htake, Bool.not_false, if_true]
  rw [if_neg Bool.false_ne_true]
  constructor
  · rw [List.length_take]
  · rfl

/-- Claim C8 witness: two true positives, two recommendations, k = 1:
precision 1 and recall 1/2, matching the amended formulas. -/
theorem evaluator_metrics_witness :
    (["a", "b"] : List String) ≠ [] ∧ (["b", "c"] : List String) ≠ [] ∧ 1 ≤ 1 ∧
    ((evaluateRecommendations ["a", "b"] ["b", "c"] 1).precision
        = pyRound4 (hitCount ["a", "b"] ["b", "c"] 1 /
            ((min 1 (["b", "c"] : List String).length : ℕ) : ℚ)) ∧
      (evaluateRecommendations ["a", "b"] ["b", "c"] 1).recallAtK
        = pyRound4 (hitCount ["a", "b"] ["b", "c"] 1 /
            (((["a", "b"] : List String).length : ℕ) : ℚ))) :=
  ⟨by decide, by decide, by decide,
    evaluator_metrics ["a", "b"] ["b", "c"] 1 (by decide) (by decide) (by decide)⟩

/-- Membership in sorted(set(l)) is membership in l. -/
theorem mem_sortedDedup (l : List ℤ) (x : ℤ) : x ∈ sortedDedup l ↔ x ∈ l := by
  unfold sortedDedup stableSortBy
  rw [List.mem_insertionSort, List.mem_dedup]

/-- sorted(set(l)) has no duplicates. -/
theorem sortedDedup_nodup (l : List ℤ) : (sortedDedup l).Nodup := by
  unfold sortedDedup stableSortBy
  exact (List.perm_insertionSort _ _).nodup_iff.mpr (List.nodup_dedup l)

/-- find? only looks at the predicate's values on the list. -/
theorem find?_congr_pred {α : Type} (l : List α) (p q : α → Bool)
    (h : ∀ x ∈ l, p x = q x) : l.find? p = l.find? q := by
  induction l with
  | nil => rfl
  | cons a t ih =>
    have ha := h a (by simp)
    cases hqa : q a with
    | true =>
      rw [List.find?_cons_of_pos t (ha.trans hqa), List.find?_cons_of_pos t hqa]
    | false =>
      rw [List.find?_cons_of_neg t (by simp [ha.trans hqa]),
        List.find?_cons_of_neg t (by simp [hqa])]
      exact ih fun x hx => h x (by simp [hx])

/-- The assignment loop leaves in cell (ui, bi) the weight of the last
row writing that cell: the first matching row of the reversed row
list (0 when no row matches). -/
theorem buildMatrixFn_eq (uids bids : List ℤ) (rows : List BehaviorRow) (ui bi : ℕ) :
    buildMatrixFn uids bids rows ui bi =
      (rows.reverse.find? fun r =>
          uids.indexOf r.user_id == ui && bids.indexOf r.business_id == bi).elim 0
        (fun r => sqlCaseWeight r.action_type) := by
  induction rows using List.reverseRecOn with
  | nil => rfl
  | append_singleton rows r ih =>
    have hstep : buildMatrixFn uids bids (rows ++ [r]) =
        matrixAssign uids bids (buildMatrixFn uids bids rows) r := by
      unfold buildMatrixFn
      rw [List.foldl_append]
      rfl
    rw [hstep, List.reverse_append,
      show ([r].reverse ++ rows.reverse) = r :: rows.reverse by simp]
    by_cases hpred :
        (fun x : BehaviorRow =>
          uids.indexOf x.user_id == ui && bids.indexOf x.business_id == bi) r = true
    · rw [@List.find?_cons_of_pos BehaviorRow
        (fun x => uids.indexOf x.user_id == ui && bids.indexOf x.business_id == bi)
        r rows.reverse hpred]
      simp only [Bool.and_eq_true, beq_iff_eq] at hpred
      unfold matrixAssign
      rw [if_pos ⟨hpred.1.symm, hpred.2.symm⟩]
      rfl
    · rw [@List.find?_cons_of_neg BehaviorRow
        (fun x => uids.indexOf x.user_id == ui && bids.indexOf x.business_id == bi)
        r rows.reverse hpred]
      unfold matrixAssign
      rw [if_neg, ← ih]
      intro hcond
      apply hpred
      simp only [Bool.and_eq_true, beq_iff_eq]
      exact ⟨hcond.1.symm, hcond.2.symm⟩

/-- On members of a duplicate-free list, equality of indexOf values is
equality of the elements, stated at the Bool level. -/
theorem indexOf_beq_of_mem (lst : List ℤ) (x y : ℤ) (hx : x ∈ lst) (hy : y ∈ lst) :
    (lst.indexOf x == lst.indexOf y) = (x == y) := by
  by_cases hxy : x = y
  · subst hxy
    simp
  · have hne : lst.indexOf x ≠ lst.indexOf y :=
      fun h => hxy ((List.indexOf_inj hx hy).mp h)
    simp [hxy, hne]

/-- The cell of the trained matrix at a participating (user, business)
pair, as a function of the fetched rows. -/
theorem trainMatrix_cell (rows : List BehaviorRow) (u b : ℤ)
    (hu : u ∈ trainUserIds rows) (hb : b ∈ trainBusinessIds rows) :
    ((trainMatrix rows).getD ((trainUserIds rows).indexOf u) []).getD
        ((trainBusinessIds rows).indexOf b) 0
      = (rows.reverse.find? fun r => r.user_id == u && r.business_id == b).elim 0
          (fun r => sqlCaseWeight r.action_type) := by
  have hui : (trainUserIds rows).indexOf u < (trainUserIds rows).length :=
    List.indexOf_lt_length.mpr hu
  have hbi : (trainBusinessIds rows).indexOf b < (trainBusinessIds rows).length :=
    List.indexOf_lt_length.mpr hb
  unfold trainMatrix
  rw [getD_map_range [] _ _ hui, getD_map_range 0 _ _ hbi, buildMatrixFn_eq]
  have hcong : (rows.reverse.find? fun r =>
      (trainUserIds rows).indexOf r.user_id == (trainUserIds rows).indexOf u &&
        (trainBusinessIds rows).indexOf r.business_id ==
          (trainBusinessIds rows).indexOf b) =
      rows.reverse.find? fun r => r.user_id == u && r.business_id == b := by
    apply find?_congr_pred
    intro r hr
    have hrmem : r ∈ rows := List.mem_reverse.mp hr
    have hru : r.user_id ∈ trainUserIds rows :=
      (mem_sortedDedup _ _).mpr (List.mem_map_of_mem _ hrmem)
    have hrb : r.business_id ∈ trainBusinessIds rows :=
      (mem_sortedDedup _ _).mpr (List.mem_map_of_mem _ hrmem)
    rw [indexOf_beq_of_mem _ _ _ hru hu, indexOf_beq_of_mem _ _ _ hrb hb]
  rw [hcong]

/-- Claim C1 (counterexample): two purchase events of user 1 on
business 10 inside the window each carry weight 3; the claim's
accumulated cell would be 6, but training stores 3 — each event
overwrites the cell instead of adding to it. -/
theorem train_overwrites_not_sums :
    ((cfTrain dupBehavior dupBiz fun _ => []).interaction_matrix.getD 0 []).getD 0 0
        = 3 ∧
    (((fetchTrainingRows dupBehavior dupBiz).filter fun r =>
        r.user_id == 1 && r.business_id == 10).map fun r =>
        sqlCaseWeight r.action_type).sum = 6 ∧
    (3 : ℚ) ≠ 6 := by
  with_unfolding_all decide

/-- Claim C1 (amended): after training, for every user u and business b
of the snapshot, the interaction-matrix cell (u, b) equals the feature
weight of the LAST in-window interaction event of u with b in log
order — the assignment loop overwrites the cell per event rather than
accumulating — and 0 when no such event exists. -/
theorem cfTrain_cell (behavior : List BehaviorRow) (businesses : List BizRow)
    (simOf : List (List ℚ) → List (List ℚ)) (u b : ℤ)
    (hu : u ∈ (cfTrain behavior businesses simOf).user_ids)
    (hb : b ∈ (cfTrain behavior businesses simOf).business_ids) :
    ((cfTrain behavior businesses simOf).interaction_matrix.getD
        ((cfTrain behavior businesses simOf).user_ids.indexOf u) []).getD
        ((cfTrain behavior businesses simOf).business_ids.indexOf b) 0
      = ((fetchTrainingRows behavior businesses).reverse.find? fun r =>
          r.user_id == u && r.business_id == b).elim 0
          (fun r => sqlCaseWeight r.action_type) := by
  by_cases hempty : (fetchTrainingRows behavior businesses).isEmpty
  · have hinit : cfTrain behavior businesses simOf = cfInit := by
      simp only [cfTrain]
      rw [if_pos hempty]
    rw [hinit] at hu
    exact absurd hu (by simp [cfInit])
  · have heq : cfTrain behavior businesses simOf =
        ⟨trainUserIds (fetchTrainingRows behavior businesses),
          trainBusinessIds (fetchTrainingRows behavior businesses),
          trainMatrix (fetchTrainingRows behavior businesses),
          some (simOf (trainMatrix (fetchTrainingRows behavior businesses)))⟩ := by
      simp only [cfTrain]
      rw [if_neg hempty]
    rw [heq] at hu hb ⊢
    exact trainMatrix_cell _ u b hu hb

/-- Claim C1 witness: on the demo log, cell (1, 10) holds the weight of
user 1's last event on business 10. -/
theorem cfTrain_cell_witness :
    (1 : ℤ) ∈ (cfTrain demoBehavior demoBiz fun _ => [[1, 7/10], [7/10, 1]]).user_ids ∧
    (10 : ℤ) ∈ (cfTrain demoBehavior demoBiz fun _ => [[1, 7/10], [7/10, 1]]).business_ids ∧
    ((cfTrain demoBehavior demoBiz fun _ => [[1, 7/10], [7/10, 1]]).interaction_matrix.getD
        ((cfTrain demoBehavior demoBiz fun _ => [[1, 7/10], [7/10, 1]]).user_ids.indexOf 1)
        []).getD
        ((cfTrain demoBehavior demoBiz fun _ =>
          [[1, 7/10], [7/10, 1]]).business_ids.indexOf 10) 0
      = ((fetchTrainingRows demoBehavior demoBiz).reverse.find? fun r =>
          r.user_id == 1 && r.business_id == 10).elim 0
          (fun r => sqlCaseWeight r.action_type) :=
  ⟨by with_unfolding_all decide, by with_unfolding_all decide,
    cfTrain_cell demoBehavior demoBiz _ 1 10 (by with_unfolding_all decide)
      (by with_unfolding_all decide)⟩

end MLBusiness
